import Mathlib

/-!
Shallow embedding of src/email_processor.py (class EmailProcessor).

Instants are modelled as integers (the resolution of the clock is
irrelevant to every claim); raw bytes are lists of naturals; the stdlib
helpers decode_header, parseaddr and parsedate_tz are modelled at the
granularity of the values they hand to the code under verification.
-/

set_option autoImplicit false

namespace EmailProc

/-- Exceptions of the Python runtime that the program raises or catches:
KeyError (line 98), UnicodeDecodeError (raised by strict str decoding at
line 79), imaplib.IMAP4.error (line 62), ConnectionError (line 70),
pymongo.errors.PyMongoError (line 122). -/
inductive PyExc where
  | keyError (key : String)
  | unicodeDecodeError
  | imap4Error
  | connectionError
  | pyMongoError
  deriving DecidableEq, Repr

/-- Mini-model of the Python codec machinery behind str(bytes, charset):
bytes below 128 decode in every charset, bytes 128..255 decode only under
latin-1, and everything else is undecodable.  What matters to the source
is only that strict decoding is partial: some byte sequences fail under
their declared charset. -/
def decodeByte (charset : String) (b : Nat) : Option Char :=
  if b < 128 then some (Char.ofNat b)
  else if charset = "latin-1" ∧ b < 256 then some (Char.ofNat b)
  else none

/-- Strict decoding of a byte list, failing as soon as one byte is
undecodable under the charset. -/
def decodeBytesStrict (charset : String) : List Nat → Option (List Char)
  | [] => some []
  | b :: bs =>
    match decodeByte charset b, decodeBytesStrict charset bs with
    | some c, some cs => some (c :: cs)
    | _, _ => none

/-- Model of Python str(bytes, charset) with default strict error
handling: returns none (raises UnicodeDecodeError) when any byte sequence
is undecodable. -/
def strictDecode (charset : String) (bs : List Nat) : Option String :=
  (decodeBytesStrict charset bs).map String.mk

/-- One element of the output of email.header.decode_header on a subject
header: either a plain str fragment, or the payload bytes of one encoded
word together with its declared charset (none when the encoded word does
not declare one). -/
inductive SegPayload where
  | str (s : String)
  | bytes (b : List Nat) (charset : Option String)
  deriving DecidableEq, Repr

/-- Line 79: str(t[0], t[1] or utf-8) when the payload is bytes, str(t[0])
when it is already a str.  The bytes case uses strict decoding, so an
undecodable payload raises UnicodeDecodeError. -/
def SegPayload.decodeSeg : SegPayload → Except PyExc String
  | .str s => .ok s
  | .bytes b c =>
    match strictDecode (c.getD "utf-8") b with
    | some s => .ok s
    | none => .error .unicodeDecodeError

/-- Lines 78-82, the generator feeding the join: decode every segment in
order, propagating the first exception. -/
def decodeSegs : List SegPayload → Except PyExc (List String)
  | [] => .ok []
  | p :: rest =>
    match p.decodeSeg with
    | .error e => .error e
    | .ok s =>
      match decodeSegs rest with
      | .error e => .error e
      | .ok ss => .ok (s :: ss)

/-- Lines 78-82: the decoded segments joined in their original order. -/
def decodeSegments (segs : List SegPayload) : Except PyExc String :=
  (decodeSegs segs).map String.join

/-- A segment whose raw on-the-wire rendering is the empty string: only a
plain empty str fragment renders to nothing, an encoded word never does. -/
def SegPayload.isEmptyTok : SegPayload → Bool
  | .str s => s == ""
  | .bytes _ _ => false

/-- The raw header string is empty, i.e. Python-falsy at line 76, exactly
when every token renders to the empty string. -/
def rawFalsy (segs : List SegPayload) : Bool :=
  segs.all SegPayload.isEmptyTok

/-- Decidable equality for Except outcomes, used to evaluate the
embedding at concrete inputs. -/
instance exceptDecEq {α β : Type} [DecidableEq α] [DecidableEq β] :
    DecidableEq (Except α β) := fun x y =>
  match x, y with
  | .error a, .error b =>
    if h : a = b then isTrue (by rw [h]) else isFalse (by intro hc; cases hc; exact h rfl)
  | .ok a, .ok b =>
    if h : a = b then isTrue (by rw [h]) else isFalse (by intro hc; cases hc; exact h rfl)
  | .error _, .ok _ => isFalse (by intro hc; cases hc)
  | .ok _, .error _ => isFalse (by intro hc; cases hc)

/-- A raw mail message as process_email reads it, at the granularity of
the stdlib helpers: the subject header as its decode_header segmentation
(none when the header is absent), the from header verbatim, the date
header as the combined result of parsedate_tz and mktime_tz (none when
the header is absent, some none when present but unparsable, some (some
t) when it parses to the epoch instant t), and the message-id header
verbatim. -/
structure EmailMessage where
  subject : Option (List SegPayload)
  fromHeader : Option String
  date : Option (Option Int)
  messageId : Option String
  deriving DecidableEq, Repr

/-- The characters before the first occurrence of c. -/
def takeUntil (c : Char) : List Char → List Char
  | [] => []
  | x :: xs => if x = c then [] else x :: takeUntil c xs

/-- The characters after the first occurrence of c, or none when c does
not occur. -/
def dropAfter (c : Char) : List Char → Option (List Char)
  | [] => none
  | x :: xs => if x = c then some xs else dropAfter c xs

/-- Mini-model of email.utils.parseaddr: split a from header into display
name and address, keeping the angle-bracket part when one is present. -/
def parseaddr (s : String) : String × String :=
  match dropAfter '<' s.data with
  | some rest => (String.mk (takeUntil '<' s.data), String.mk (takeUntil '>' rest))
  | none => ("", s)

/-- The canonical record returned by process_email (lines 92-97). -/
structure Record where
  message_id : String
  sender : String
  subject : String
  timestamp : Int
  deriving DecidableEq, Repr

/-- Model of s.encode(utf-8).decode(utf-8, errors=replace) applied to a
Python str holding valid Unicode (lines 82 and 85): encoding valid
Unicode to UTF-8 and decoding it back never meets an undecodable
sequence, so the replacement branch never fires and the whole round trip
is the identity. -/
def utf8ReplaceRoundTrip (s : String) : String := s

/-- Lines 75-82: subject extraction.  An absent header defaults to the
placeholder (line 75); a falsy value skips the decoding branch and is
kept unchanged, hence the empty string; otherwise every segment is
strictly decoded, joined in order, and round-tripped through utf-8. -/
def subjectOf (msg : EmailMessage) : Except PyExc String :=
  let raw := msg.subject.getD [SegPayload.str "[No subject]"]
  if rawFalsy raw then Except.ok ""
  else (decodeSegments raw).map utf8ReplaceRoundTrip

/-- Lines 84-85: sender extraction, the address part of the from header
(defaulted to the empty string), round-tripped through utf-8. -/
def senderOf (msg : EmailMessage) : String :=
  utf8ReplaceRoundTrip (parseaddr (msg.fromHeader.getD "")).2

/-- Lines 87-90: the timestamp parsed from the date header when present
and parseable, and the current wall clock otherwise. -/
def timestampOf (msg : EmailMessage) (now : Int) : Int :=
  match msg.date with
  | some (some t) => t
  | _ => now

/-- Lines 74-97: the body of the try block of process_email.  The only
fallible step is the subject decoding; the message id defaults to NO_ID_
followed by the rendering of the timestamp computed at lines 87-90. -/
def extractEmail (msg : EmailMessage) (now : Int) : Except PyExc Record :=
  (subjectOf msg).map fun subj =>
    { message_id := msg.messageId.getD ("NO_ID_" ++ toString (timestampOf msg now)),
      sender := senderOf msg,
      subject := subj,
      timestamp := timestampOf msg now }

/-- Observable outcome of process_email: a record, or the message skipped
through the KeyError branch (lines 98-100), or skipped through the broad
catch-all branch (lines 101-103).  Both skip branches return None. -/
inductive PEResult where
  | record (r : Record)
  | skippedKey (key : String)
  | skippedOther
  deriving DecidableEq, Repr

def PEResult.isRecord : PEResult → Bool
  | .record _ => true
  | _ => false

/-- Lines 72-103: process_email. -/
def process_email (msg : EmailMessage) (now : Int) : PEResult :=
  match extractEmail msg now with
  | .ok r => .record r
  | .error (.keyError k) => .skippedKey k
  | .error _ => .skippedOther

/-- A stored document: the record fields plus processed_at, exactly the
keys written at lines 109-115. -/
structure Doc where
  message_id : String
  sender : String
  subject : String
  timestamp : Int
  processed_at : Int
  deriving DecidableEq, Repr

def recordToDoc (r : Record) (t : Int) : Doc :=
  { message_id := r.message_id, sender := r.sender, subject := r.subject,
    timestamp := r.timestamp, processed_at := t }

/-- Lines 116-120: update_one filtered on message_id with a $set of every
document field and upsert=true - replace the first matching document in
place, or append the new document when none matches. -/
def update_one_upsert : List Doc → Doc → List Doc
  | [], d => [d]
  | x :: xs, d =>
    if x.message_id = d.message_id then d :: xs
    else x :: update_one_upsert xs d

/-- The stored documents whose message_id equals the given key. -/
def docsFor (db : List Doc) (id : String) : List Doc :=
  db.filter fun d => d.message_id == id

/-- Outcome of save_to_database: the new store contents, whether the call
re-raised the underlying store error, and whether that error was logged
(line 123) before the re-raise (line 124). -/
structure SaveResult where
  db : List Doc
  raised : Bool
  errorLogged : Bool
  deriving DecidableEq, Repr

/-- Lines 105-124: save_to_database.  storeFails models the underlying
PyMongoError raised by the driver call at lines 116-120; in that case
nothing is written, the error is logged and re-raised.  Otherwise the
upsert is performed with processed_at set to the save-time clock
(line 114). -/
def save_to_database (db : List Doc) (r : Record) (now : Int) (storeFails : Bool) : SaveResult :=
  if storeFails then { db := db, raised := true, errorLogged := true }
  else { db := update_one_upsert db (recordToDoc r now), raised := false, errorLogged := false }

/-- Outcome of connect_to_email_server: a session (the index of the
attempt that succeeded), a raised exception, or the implicit None return
when the for loop runs out of iterations. -/
inductive ConnResult where
  | session (attempt : Nat)
  | raised (e : PyExc)
  | fellThrough
  deriving DecidableEq, Repr

def ConnResult.isSession : ConnResult → Bool
  | .session _ => true
  | _ => false

/-- Trace of connect_to_email_server: the outcome, the number of attempts
made, and the sleep durations performed between consecutive attempts. -/
structure ConnTrace where
  result : ConnResult
  attempts : Nat
  delays : List Nat
  deriving DecidableEq, Repr

/-- Lines 56-70: the retry loop.  att gives the outcome of the underlying
IMAP4_SSL construction plus login for each attempt index (none = success,
some e = that attempt raised e, caught at lines 62-65); fuel is the
number of loop iterations left.  After a failure the loop sleeps
retryDelay when attempts remain (lines 66-68) and raises ConnectionError
on the last attempt (line 70).  fellThrough is the implicit None return
when the loop runs out, unreachable for fuel = 3. -/
def connectAux (att : Nat → Option PyExc) (retryDelay : Nat) : Nat → Nat → ConnTrace
  | _, 0 => { result := .fellThrough, attempts := 0, delays := [] }
  | attempt, fuel + 1 =>
    match att attempt with
    | none => { result := .session attempt, attempts := 1, delays := [] }
    | some _ =>
      if fuel = 0 then { result := .raised .connectionError, attempts := 1, delays := [] }
      else
        let rest := connectAux att retryDelay (attempt + 1) fuel
        { result := rest.result, attempts := rest.attempts + 1, delays := retryDelay :: rest.delays }

/-- Lines 52-70: connect_to_email_server with max_retries = 3 and
retry_delay = 5 (lines 54-55). -/
def connect_to_email_server (att : Nat → Option PyExc) : ConnTrace :=
  connectAux att 5 0 3

/-- Environment of one sweep: the per-attempt connect outcomes, the
search status and the unread id list it returns, the fetch outcome per
message id (none models a non-OK fetch status, some msg an OK fetch whose
bytes parse to msg), which message_ids make the store raise, and whether
the logout call itself raises. -/
structure SweepEnv where
  connectAtt : Nat → Option PyExc
  searchOk : Bool
  searchIds : List String
  fetch : String → Option EmailMessage
  saveFails : String → Bool
  logoutFails : Bool

/-- Whether the connect call of the sweep returns a session. -/
def connOk (env : SweepEnv) : Bool :=
  (connect_to_email_server env.connectAtt).result.isSession

/-- Trace of the per-message loop, lines 141-151: resulting store, ids
fetched, message_ids saved, ids whose fetch returned a non-OK status and
was logged at line 144, whether a store error was logged inside
save_to_database, and whether the loop was aborted by an exception. -/
structure LoopOut where
  db : List Doc
  fetched : List String
  saved : List String
  fetchWarns : List String
  storeErrorLogged : Bool
  exc : Bool
  deriving DecidableEq, Repr

/-- Lines 141-151: the per-message loop.  A non-OK fetch logs a warning
and continues; a null normalization result skips the save; a store
failure logs, re-raises and aborts the rest of the id list. -/
def sweepLoop (env : SweepEnv) (now : Int) : List Doc → List String → LoopOut
  | db, [] =>
    { db := db, fetched := [], saved := [], fetchWarns := [],
      storeErrorLogged := false, exc := false }
  | db, eid :: rest =>
    match env.fetch eid with
    | none =>
      let out := sweepLoop env now db rest
      { out with fetched := eid :: out.fetched, fetchWarns := eid :: out.fetchWarns }
    | some msg =>
      match process_email msg now with
      | .record r =>
        let sres := save_to_database db r now (env.saveFails r.message_id)
        if sres.raised then
          { db := sres.db, fetched := [eid], saved := [], fetchWarns := [],
            storeErrorLogged := true, exc := true }
        else
          let out := sweepLoop env now sres.db rest
          { out with fetched := eid :: out.fetched, saved := r.message_id :: out.saved }
      | _ =>
        let out := sweepLoop env now db rest
        { out with fetched := eid :: out.fetched }

/-- Observable trace of one call to process_unread_emails: the resulting
store, how many times logout was invoked, whether the call itself let an
exception escape, the ids fetched, the message_ids saved, the per-id
fetch warnings, and which handlers logged. -/
structure SweepTrace where
  db : List Doc
  logouts : Nat
  raised : Bool
  fetched : List String
  saved : List String
  fetchWarns : List String
  searchWarned : Bool
  storeErrorLogged : Bool
  sweepErrorLogged : Bool
  connErrorLogged : Bool
  deriving DecidableEq, Repr

/-- Lines 126-158: process_unread_emails.  When connect raises, the name
mail was never bound, the handler at line 152 logs for a ConnectionError
and the one at line 154 for anything else, and the finally block at lines
156-158 finds no mail in locals, so no logout happens.  When connect
returns, every exit path runs the finally block, which invokes logout
exactly once; the logout call itself is not guarded, so when it raises
the exception escapes the call. -/
def process_unread_emails (env : SweepEnv) (now : Int) (db : List Doc) : SweepTrace :=
  match (connect_to_email_server env.connectAtt).result with
  | .raised e =>
    { db := db, logouts := 0, raised := false, fetched := [], saved := [],
      fetchWarns := [], searchWarned := false, storeErrorLogged := false,
      sweepErrorLogged := decide (e ≠ PyExc.connectionError),
      connErrorLogged := decide (e = PyExc.connectionError) }
  | .fellThrough =>
    { db := db, logouts := 0, raised := true, fetched := [], saved := [],
      fetchWarns := [], searchWarned := false, storeErrorLogged := false,
      sweepErrorLogged := true, connErrorLogged := false }
  | .session _ =>
    if env.searchOk = false then
      { db := db, logouts := 1, raised := env.logoutFails, fetched := [], saved := [],
        fetchWarns := [], searchWarned := true, storeErrorLogged := false,
        sweepErrorLogged := false, connErrorLogged := false }
    else if env.searchIds.isEmpty then
      { db := db, logouts := 1, raised := env.logoutFails, fetched := [], saved := [],
        fetchWarns := [], searchWarned := false, storeErrorLogged := false,
        sweepErrorLogged := false, connErrorLogged := false }
    else
      let out := sweepLoop env now db env.searchIds
      { db := out.db, logouts := 1, raised := env.logoutFails, fetched := out.fetched,
        saved := out.saved, fetchWarns := out.fetchWarns, searchWarned := false,
        storeErrorLogged := out.storeErrorLogged, sweepErrorLogged := out.exc,
        connErrorLogged := false }

/-! ## Concrete witness data -/

def wRec1 : Record :=
  { message_id := "m1", sender := "alice@example.com", subject := "first", timestamp := 1 }

def wRec2 : Record :=
  { message_id := "m1", sender := "bob@example.com", subject := "second", timestamp := 2 }

def exC3Env : SweepEnv :=
  { connectAtt := fun _ => none, searchOk := true, searchIds := [],
    fetch := fun _ => none, saveFails := fun _ => false, logoutFails := true }

def wMsg (i : String) : EmailMessage :=
  { subject := some [SegPayload.str ("hello " ++ i)],
    fromHeader := some ("A <" ++ i ++ "@x.org>"),
    date := some (some 100), messageId := some ("id-" ++ i) }

def wRecOf (i : String) : Record :=
  { message_id := "id-" ++ i, sender := i ++ "@x.org",
    subject := "hello " ++ i, timestamp := 100 }

def envC7a : SweepEnv :=
  { connectAtt := fun _ => none, searchOk := false, searchIds := [],
    fetch := fun _ => none, saveFails := fun _ => false, logoutFails := false }

def envC7b : SweepEnv :=
  { connectAtt := fun _ => none, searchOk := true, searchIds := ["1", "2", "3"],
    fetch := fun i => if i = "2" then none else some (wMsg i),
    saveFails := fun _ => false, logoutFails := false }

def envC8 : SweepEnv :=
  { connectAtt := fun _ => none, searchOk := true, searchIds := ["1", "2", "3"],
    fetch := fun i => some (wMsg i), saveFails := fun s => s == "id-2",
    logoutFails := false }

def exC4Msg : EmailMessage :=
  { subject := some [SegPayload.bytes [200] none], fromHeader := none,
    date := none, messageId := none }

def exC4wMsg : EmailMessage :=
  { subject := none, fromHeader := some "carol@x.org", date := none, messageId := none }

def exC5Msg : EmailMessage :=
  { subject := some [SegPayload.str "Re: ", SegPayload.bytes [255] (some "ascii")],
    fromHeader := some "Dave <dave@x.org>", date := some (some 50), messageId := some "m5" }

def exC6Msg : EmailMessage :=
  { subject := some [SegPayload.bytes [72, 105] (some "ascii"),
      SegPayload.bytes [200, 201] (some "latin-1")],
    fromHeader := some "Eve <eve@x.org>", date := some (some 7), messageId := some "m6" }

def exC6MsgNoSubj : EmailMessage :=
  { subject := none, fromHeader := some "Eve <eve@x.org>", date := some (some 7),
    messageId := some "m6b" }

def exC9Msg : EmailMessage :=
  { subject := some [SegPayload.str ""], fromHeader := some "frank@x.org",
    date := some (some 9), messageId := some "m9" }

/-! ## Store lemmas -/

theorem docsFor_cons (x : Doc) (xs : List Doc) (id : String) :
    docsFor (x :: xs) id = if x.message_id = id then x :: docsFor xs id else docsFor xs id := by
  by_cases h : x.message_id = id <;> simp [docsFor, List.filter_cons, h]

theorem docsFor_upsert (db : List Doc) (d : Doc)
    (h : (docsFor db d.message_id).length ≤ 1) :
    docsFor (update_one_upsert db d) d.message_id = [d] := by
  induction db with
  | nil => simp [update_one_upsert, docsFor]
  | cons x xs ih =>
    by_cases hx : x.message_id = d.message_id
    · have hxs : docsFor xs d.message_id = [] := by
        have hlen : (docsFor xs d.message_id).length = 0 := by
          rw [docsFor_cons, if_pos hx, List.length_cons] at h; omega
        exact List.length_eq_zero.mp hlen
      rw [update_one_upsert, if_pos hx, docsFor_cons, if_pos rfl, hxs]
    · rw [update_one_upsert, if_neg hx, docsFor_cons, if_neg hx]
      apply ih
      rwa [docsFor_cons, if_neg hx] at h

/-- Claim C1: save_to_database performs an upsert keyed on message_id:
given a store holding at most one document for the key (the uniqueness
constraint of _setup_database, line 42), after two saves with the same
message_id the store holds exactly one document for that key, its fields
are the second record plus the second save-time processed_at, and when
the clock advances between the saves the stored processed_at advances
with it. -/
theorem save_twice_upsert (db : List Doc) (r1 r2 : Record) (t1 t2 : Int)
    (hid : r1.message_id = r2.message_id)
    (huniq : (docsFor db r2.message_id).length ≤ 1) :
    docsFor (save_to_database db r1 t1 false).db r2.message_id = [recordToDoc r1 t1] ∧
    docsFor (save_to_database (save_to_database db r1 t1 false).db r2 t2 false).db r2.message_id
      = [recordToDoc r2 t2] ∧
    (t1 < t2 →
      ∀ d1 ∈ docsFor (save_to_database db r1 t1 false).db r2.message_id,
        ∀ d2 ∈ docsFor (save_to_database (save_to_database db r1 t1 false).db r2 t2 false).db
            r2.message_id,
          d1.processed_at < d2.processed_at) := by
  have e1 : (recordToDoc r1 t1).message_id = r2.message_id := hid
  have e2 : (recordToDoc r2 t2).message_id = r2.message_id := rfl
  have h1 : docsFor (update_one_upsert db (recordToDoc r1 t1)) r2.message_id
      = [recordToDoc r1 t1] := by
    have := docsFor_upsert db (recordToDoc r1 t1) (by rw [e1]; exact huniq)
    rwa [e1] at this
  have h2 : docsFor (update_one_upsert (update_one_upsert db (recordToDoc r1 t1))
      (recordToDoc r2 t2)) r2.message_id = [recordToDoc r2 t2] := by
    have := docsFor_upsert (update_one_upsert db (recordToDoc r1 t1)) (recordToDoc r2 t2)
      (by rw [e2, h1]; simp)
    rwa [e2] at this
  refine ⟨by simpa [save_to_database] using h1, by simpa [save_to_database] using h2, ?_⟩
  intro hlt d1 hd1 d2 hd2
  simp only [save_to_database, if_neg (by simp : ¬ (false : Bool) = true)] at hd1 hd2
  rw [h1] at hd1
  rw [h2] at hd2
  simp at hd1 hd2
  subst hd1; subst hd2
  simpa [recordToDoc] using hlt

/-- Witness for C1: saving wRec1 then wRec2, both keyed m1, into the empty
store leaves exactly the single document of wRec2 stamped at the second
save time. -/
theorem save_twice_upsert_witness :
    docsFor (save_to_database (save_to_database [] wRec1 10 false).db wRec2 20 false).db
      wRec2.message_id = [recordToDoc wRec2 20] :=
  (save_twice_upsert [] wRec1 wRec2 10 20 (by decide) (by decide)).2.1

/-! ## Connect lemmas -/

theorem connect_success0 (att : Nat → Option PyExc) (h0 : att 0 = none) :
    connect_to_email_server att =
      { result := .session 0, attempts := 1, delays := [] } := by
  simp [connect_to_email_server, connectAux, h0]

theorem connect_success1 (att : Nat → Option PyExc) (e0 : PyExc)
    (h0 : att 0 = some e0) (h1 : att 1 = none) :
    connect_to_email_server att =
      { result := .session 1, attempts := 2, delays := [5] } := by
  simp [connect_to_email_server, connectAux, h0, h1]

theorem connect_success2 (att : Nat → Option PyExc) (e0 e1 : PyExc)
    (h0 : att 0 = some e0) (h1 : att 1 = some e1) (h2 : att 2 = none) :
    connect_to_email_server att =
      { result := .session 2, attempts := 3, delays := [5, 5] } := by
  simp [connect_to_email_server, connectAux, h0, h1, h2]

theorem connect_allfail (att : Nat → Option PyExc) (e0 e1 e2 : PyExc)
    (h0 : att 0 = some e0) (h1 : att 1 = some e1) (h2 : att 2 = some e2) :
    connect_to_email_server att =
      { result := .raised .connectionError, attempts := 3, delays := [5, 5] } := by
  simp [connect_to_email_server, connectAux, h0, h1, h2]

/-- With max_retries = 3 the for loop never falls through: every run
returns a session or raises. -/
theorem connect_never_fellThrough (att : Nat → Option PyExc) :
    (connect_to_email_server att).result ≠ ConnResult.fellThrough := by
  rcases h0 : att 0 with _ | e0
  · rw [connect_success0 att h0]; simp
  · rcases h1 : att 1 with _ | e1
    · rw [connect_success1 att e0 h0 h1]; simp
    · rcases h2 : att 2 with _ | e2
      · rw [connect_success2 att e0 e1 h0 h1 h2]; simp
      · rw [connect_allfail att e0 e1 e2 h0 h1 h2]; simp

/-- Claim C2: connect_to_email_server makes at most 3 attempts with a
fixed 5-unit delay after each failed attempt that is not the last; the
first successful attempt among the first 3 returns that session after
exactly one delay per preceding failure; and when all 3 attempts fail it
raises the terminal ConnectionError - a different exception from the
underlying imaplib protocol error - and returns no session. -/
theorem connect_retry_policy (att : Nat → Option PyExc) :
    (connect_to_email_server att).attempts ≤ 3 ∧
    (connect_to_email_server att).delays =
      List.replicate ((connect_to_email_server att).attempts - 1) 5 ∧
    (∀ k, k < 3 → att k = none → (∀ i, i < k → att i ≠ none) →
      (connect_to_email_server att).result = ConnResult.session k ∧
      (connect_to_email_server att).attempts = k + 1) ∧
    ((∀ i, i < 3 → att i ≠ none) →
      (connect_to_email_server att).result = ConnResult.raised PyExc.connectionError ∧
      (connect_to_email_server att).attempts = 3 ∧
      (connect_to_email_server att).delays = [5, 5] ∧
      PyExc.connectionError ≠ PyExc.imap4Error) := by
  rcases h0 : att 0 with _ | e0
  · rw [connect_success0 att h0]
    refine ⟨by simp, by simp, ?_, ?_⟩
    · intro k hk hks hkp
      have hk0 : k = 0 := by
        by_contra hne
        exact hkp 0 (by omega) h0
      subst hk0; simp
    · intro hall; exact absurd h0 (hall 0 (by omega))
  · rcases h1 : att 1 with _ | e1
    · rw [connect_success1 att e0 h0 h1]
      refine ⟨by simp, by simp, ?_, ?_⟩
      · intro k hk hks hkp
        have hk1 : k = 1 := by
          interval_cases k
          · rw [h0] at hks; cases hks
          · rfl
          · exact absurd h1 (hkp 1 (by omega))
        subst hk1; simp
      · intro hall; exact absurd h1 (hall 1 (by omega))
    · rcases h2 : att 2 with _ | e2
      · rw [connect_success2 att e0 e1 h0 h1 h2]
        refine ⟨by simp, by simp, ?_, ?_⟩
        · intro k hk hks hkp
          have hk2 : k = 2 := by
            interval_cases k
            · rw [h0] at hks; cases hks
            · rw [h1] at hks; cases hks
            · rfl
          subst hk2; simp
        · intro hall; exact absurd h2 (hall 2 (by omega))
      · rw [connect_allfail att e0 e1 e2 h0 h1 h2]
        refine ⟨by simp, by simp, ?_, ?_⟩
        · intro k hk hks hkp
          interval_cases k
          · rw [h0] at hks; cases hks
          · rw [h1] at hks; cases hks
          · rw [h2] at hks; cases hks
        · intro _; exact ⟨rfl, rfl, rfl, by decide⟩

/-- Witness for C2, at the scenario of spec property 4: two failures then
a success yield the session on attempt index 2 after two 5-unit waits and
three attempts, while three failures raise the terminal ConnectionError
after three attempts. -/
theorem connect_retry_policy_witness :
    (connect_to_email_server fun i => if i = 2 then none else some PyExc.imap4Error).result
        = ConnResult.session 2 ∧
    (connect_to_email_server fun i => if i = 2 then none else some PyExc.imap4Error).attempts
        = 3 ∧
    (connect_to_email_server fun i => if i = 2 then none else some PyExc.imap4Error).delays
        = [5, 5] ∧
    (connect_to_email_server fun _ => some PyExc.imap4Error).result
        = ConnResult.raised PyExc.connectionError := by
  have hs := connect_retry_policy fun i => if i = 2 then none else some PyExc.imap4Error
  have hf := connect_retry_policy fun _ => some PyExc.imap4Error
  have h1 := hs.2.2.1 2 (by omega) (by decide) (by decide)
  have h2 := (hf.2.2.2 (by intro i _; simp)).1
  refine ⟨h1.1, h1.2, ?_, h2⟩
  have := hs.2.1
  rw [h1.2] at this
  simpa using this

/-! ## Sweep lemmas -/

theorem connOk_session (env : SweepEnv) (h : connOk env = true) :
    ∃ k, (connect_to_email_server env.connectAtt).result = ConnResult.session k := by
  unfold connOk at h
  rcases hres : (connect_to_email_server env.connectAtt).result with k | e | _
  · exact ⟨k, rfl⟩
  · rw [hres] at h; simp [ConnResult.isSession] at h
  · rw [hres] at h; simp [ConnResult.isSession] at h

theorem sweep_session_fields (env : SweepEnv) (now : Int) (db : List Doc) (k : Nat)
    (hres : (connect_to_email_server env.connectAtt).result = ConnResult.session k) :
    (process_unread_emails env now db).logouts = 1 ∧
    (process_unread_emails env now db).raised = env.logoutFails := by
  simp only [process_unread_emails, hres]
  by_cases h1 : env.searchOk = false
  · simp [h1]
  · by_cases h2 : env.searchIds.isEmpty = true <;> simp [h1, h2]

/-- Counterexample to claim C3 as stated: in a sweep whose open succeeds
and whose logout itself raises, the finally block at lines 156-158 calls
logout unguarded, so the exception escapes process_unread_emails - close
is invoked exactly once but it is allowed to crash the sweep. -/
theorem close_can_crash_sweep :
    (process_unread_emails exC3Env 0 []).logouts = 1 ∧
    (process_unread_emails exC3Env 0 []).raised = true := by
  decide

/-- Claim C3 (amended): close is invoked exactly once on every exit path
of process_unread_emails when the open succeeded and never when it
failed; however the logout call in the finally block is not guarded, so
the call crashes the sweep exactly when the open succeeded and close
itself raises. -/
theorem close_called_iff_opened (env : SweepEnv) (now : Int) (db : List Doc) :
    (process_unread_emails env now db).logouts = (if connOk env then 1 else 0) ∧
    (process_unread_emails env now db).raised = (connOk env && env.logoutFails) := by
  rcases hres : (connect_to_email_server env.connectAtt).result with k | e | _
  · have hok : connOk env = true := by simp [connOk, hres, ConnResult.isSession]
    have hf := sweep_session_fields env now db k hres
    simp [hf.1, hf.2, hok]
  · have hok : connOk env = false := by simp [connOk, hres, ConnResult.isSession]
    simp [process_unread_emails, hres, hok]
  · exact absurd hres (connect_never_fellThrough env.connectAtt)

theorem sweepLoop_skip_one (env : SweepEnv) (now : Int) (j : String)
    (m : String → EmailMessage) (r : String → Record) (hj : env.fetch j = none)
    (ids : List String)
    (h : ∀ i ∈ ids, i ≠ j → env.fetch i = some (m i) ∧
      process_email (m i) now = PEResult.record (r i) ∧
      env.saveFails (r i).message_id = false) :
    ∀ db : List Doc,
      (sweepLoop env now db ids).fetched = ids ∧
      (sweepLoop env now db ids).fetchWarns = ids.filter (fun i => i == j) ∧
      (sweepLoop env now db ids).saved
          = (ids.filter fun i => !(i == j)).map (fun i => (r i).message_id) ∧
      (sweepLoop env now db ids).exc = false := by
  induction ids with
  | nil => intro db; simp [sweepLoop]
  | cons i rest ih =>
    intro db
    have hrest : ∀ x ∈ rest, x ≠ j → env.fetch x = some (m x) ∧
        process_email (m x) now = PEResult.record (r x) ∧
        env.saveFails (r x).message_id = false :=
      fun x hx => h x (List.mem_cons_of_mem _ hx)
    by_cases hij : i = j
    · subst hij
      obtain ⟨ihf, ihw, ihs, ihe⟩ := ih hrest db
      simp only [sweepLoop, hj]
      refine ⟨?_, ?_, ?_, ?_⟩ <;> simp [List.filter_cons, ihf, ihw, ihs, ihe]
    · obtain ⟨hf, hpe, hsf⟩ := h i (by simp) hij
      simp only [sweepLoop, hf, hpe, hsf, save_to_database]
      obtain ⟨ihf, ihw, ihs, ihe⟩ := ih hrest (update_one_upsert db (recordToDoc (r i) now))
      refine ⟨?_, ?_, ?_, ?_⟩ <;> simp [List.filter_cons, hij, ihf, ihw, ihs, ihe]

/-- Claim C7: a non-OK search status logs a warning and ends the sweep
without raising, close still invoked exactly once; a non-OK fetch status
for one id logs a warning for exactly that id and skips only it, every
other id still being fetched, normalized and persisted (under a teardown
that does not itself raise; that caveat is settled at claim C3). -/
theorem protocol_failures_nonfatal (env : SweepEnv) (now : Int) (db : List Doc)
    (hconn : connOk env = true) (hlog : env.logoutFails = false) :
    (env.searchOk = false →
      (process_unread_emails env now db).searchWarned = true ∧
      (process_unread_emails env now db).raised = false ∧
      (process_unread_emails env now db).logouts = 1 ∧
      (process_unread_emails env now db).saved = [] ∧
      (process_unread_emails env now db).fetched = []) ∧
    (∀ (j : String) (m : String → EmailMessage) (r : String → Record),
      env.searchOk = true →
      env.fetch j = none →
      (∀ i ∈ env.searchIds, i ≠ j → env.fetch i = some (m i) ∧
        process_email (m i) now = PEResult.record (r i) ∧
        env.saveFails (r i).message_id = false) →
      (process_unread_emails env now db).fetched = env.searchIds ∧
      (process_unread_emails env now db).fetchWarns
          = env.searchIds.filter (fun i => i == j) ∧
      (process_unread_emails env now db).saved
          = (env.searchIds.filter fun i => !(i == j)).map (fun i => (r i).message_id) ∧
      (process_unread_emails env now db).raised = false ∧
      (process_unread_emails env now db).logouts = 1) := by
  obtain ⟨k, hres⟩ := connOk_session env hconn
  constructor
  · intro hs
    simp [process_unread_emails, hres, hs, hlog]
  · intro j m r hs hj h
    have hloop := sweepLoop_skip_one env now j m r hj env.searchIds h db
    by_cases hemp : env.searchIds.isEmpty = true
    · have hnil : env.searchIds = [] := by simpa using hemp
      simp [process_unread_emails, hres, hs, hnil, hlog]
    · simp only [process_unread_emails, hres]
      rw [if_neg (by simp [hs]), if_neg hemp]
      exact ⟨hloop.1, hloop.2.1, hloop.2.2.1, hlog, rfl⟩

/-- Witness for C7: a failed search warns and ends the sweep cleanly, and
with three unread ids whose middle fetch returns non-OK the other two are
still fetched and persisted. -/
theorem protocol_failures_nonfatal_witness :
    (process_unread_emails envC7a 0 []).searchWarned = true ∧
    (process_unread_emails envC7a 0 []).raised = false ∧
    (process_unread_emails envC7b 0 []).fetched = ["1", "2", "3"] ∧
    (process_unread_emails envC7b 0 []).fetchWarns = ["2"] ∧
    (process_unread_emails envC7b 0 []).saved = ["id-1", "id-3"] ∧
    (process_unread_emails envC7b 0 []).raised = false := by
  have hA := (protocol_failures_nonfatal envC7a 0 [] (by decide) rfl).1 rfl
  have hB := (protocol_failures_nonfatal envC7b 0 [] (by decide) rfl).2 "2" wMsg wRecOf
    rfl (by decide) (by decide)
  refine ⟨hA.1, hA.2.1, hB.1, by simpa using hB.2.1, ?_, hB.2.2.2.1⟩
  have := hB.2.2.1
  simpa [wRecOf] using this

theorem sweepLoop_store_abort (env : SweepEnv) (now : Int)
    (m : String → EmailMessage) (r : String → Record)
    (k : String) (post : List String)
    (hk : env.fetch k = some (m k))
    (hkrec : process_email (m k) now = PEResult.record (r k))
    (hkfail : env.saveFails (r k).message_id = true) :
    ∀ pre : List String,
      (∀ i ∈ pre, env.fetch i = some (m i) ∧
        process_email (m i) now = PEResult.record (r i) ∧
        env.saveFails (r i).message_id = false) →
      ∀ db : List Doc,
        (sweepLoop env now db (pre ++ k :: post)).fetched = pre ++ [k] ∧
        (sweepLoop env now db (pre ++ k :: post)).saved
            = pre.map (fun i => (r i).message_id) ∧
        (sweepLoop env now db (pre ++ k :: post)).exc = true ∧
        (sweepLoop env now db (pre ++ k :: post)).storeErrorLogged = true := by
  intro pre
  induction pre with
  | nil =>
    intro _ db
    simp only [List.nil_append, sweepLoop, hk, hkrec, hkfail, save_to_database]
    simp
  | cons i rest ih =>
    intro h db
    obtain ⟨hf, hpe, hsf⟩ := h i (by simp)
    have hrest : ∀ x ∈ rest, env.fetch x = some (m x) ∧
        process_email (m x) now = PEResult.record (r x) ∧
        env.saveFails (r x).message_id = false :=
      fun x hx => h x (List.mem_cons_of_mem _ hx)
    simp only [List.cons_append, sweepLoop, hf, hpe, hsf, save_to_database]
    obtain ⟨ihf, ihs, ihe, ihl⟩ := ih hrest (update_one_upsert db (recordToDoc (r i) now))
    refine ⟨?_, ?_, ?_, ?_⟩ <;> simp [ihf, ihs, ihe, ihl]

/-- Claim C8: when save_to_database raises on one message, the store
error is logged and re-raised inside save_to_database, caught and logged
at the outer boundary of the sweep, and the sweep ends there: the ids
after the failing one are never fetched, teardown still runs exactly
once, and process_unread_emails returns without raising (under a
teardown that does not itself raise; that caveat is settled at claim
C3). -/
theorem store_failure_aborts_sweep (env : SweepEnv) (now : Int) (db : List Doc)
    (m : String → EmailMessage) (r : String → Record)
    (pre : List String) (k : String) (post : List String)
    (hconn : connOk env = true) (hlog : env.logoutFails = false)
    (hs : env.searchOk = true) (hids : env.searchIds = pre ++ k :: post)
    (hpre : ∀ i ∈ pre, env.fetch i = some (m i) ∧
      process_email (m i) now = PEResult.record (r i) ∧
      env.saveFails (r i).message_id = false)
    (hk : env.fetch k = some (m k))
    (hkrec : process_email (m k) now = PEResult.record (r k))
    (hkfail : env.saveFails (r k).message_id = true) :
    (process_unread_emails env now db).storeErrorLogged = true ∧
    (process_unread_emails env now db).sweepErrorLogged = true ∧
    (process_unread_emails env now db).raised = false ∧
    (process_unread_emails env now db).logouts = 1 ∧
    (process_unread_emails env now db).fetched = pre ++ [k] ∧
    (process_unread_emails env now db).saved = pre.map (fun i => (r i).message_id) := by
  obtain ⟨ksess, hres⟩ := connOk_session env hconn
  have hloop := sweepLoop_store_abort env now m r k post hk hkrec hkfail pre hpre db
  have hemp : ¬ env.searchIds.isEmpty = true := by simp [hids]
  simp only [process_unread_emails, hres]
  rw [if_neg (by simp [hs]), if_neg hemp, hids]
  exact ⟨hloop.2.2.2, hloop.2.2.1, hlog, rfl, hloop.1, hloop.2.1⟩

/-- Witness for C8: with three unread ids and a store that raises on the
second record, the first is saved, the third is never fetched, the error
is logged at both boundaries, and the call returns with one logout. -/
theorem store_failure_aborts_sweep_witness :
    (process_unread_emails envC8 0 []).storeErrorLogged = true ∧
    (process_unread_emails envC8 0 []).sweepErrorLogged = true ∧
    (process_unread_emails envC8 0 []).raised = false ∧
    (process_unread_emails envC8 0 []).logouts = 1 ∧
    (process_unread_emails envC8 0 []).fetched = ["1", "2"] ∧
    (process_unread_emails envC8 0 []).saved = ["id-1"] := by
  have h := store_failure_aborts_sweep envC8 0 [] wMsg wRecOf ["1"] "2" ["3"]
    (by decide) rfl rfl rfl (by decide) rfl (by decide) (by decide)
  refine ⟨h.1, h.2.1, h.2.2.1, h.2.2.2.1, by simpa using h.2.2.2.2.1, ?_⟩
  simpa [wRecOf] using h.2.2.2.2.2

/-! ## Normalizer lemmas -/

theorem decodeSeg_error (p : SegPayload) (e : PyExc) (h : p.decodeSeg = Except.error e) :
    e = PyExc.unicodeDecodeError := by
  cases p with
  | str s => simp [SegPayload.decodeSeg] at h
  | bytes b c =>
    rw [SegPayload.decodeSeg] at h
    rcases hd : strictDecode (c.getD "utf-8") b with _ | s <;> rw [hd] at h <;> simp at h
    exact h.symm

theorem isEmptyTok_false_of_error (p : SegPayload) (e : PyExc)
    (h : p.decodeSeg = Except.error e) : p.isEmptyTok = false := by
  cases p with
  | str s => simp [SegPayload.decodeSeg] at h
  | bytes b c => rfl

theorem decodeSegs_error (segs : List SegPayload) (e : PyExc)
    (h : decodeSegs segs = Except.error e) : e = PyExc.unicodeDecodeError := by
  induction segs with
  | nil => simp [decodeSegs] at h
  | cons p rest ih =>
    rw [decodeSegs] at h
    rcases hp : p.decodeSeg with ep | s
    · rw [hp] at h
      injection h with h2
      subst h2
      exact decodeSeg_error p ep hp
    · rw [hp] at h
      rcases hr : decodeSegs rest with er | ss
      · rw [hr] at h
        injection h with h2
        subst h2
        exact ih hr
      · rw [hr] at h; cases h

theorem rawFalsy_false_of_error (segs : List SegPayload) (e : PyExc)
    (h : decodeSegs segs = Except.error e) : rawFalsy segs = false := by
  induction segs with
  | nil => simp [decodeSegs] at h
  | cons p rest ih =>
    rw [decodeSegs] at h
    rcases hp : p.decodeSeg with ep | s
    · rw [hp] at h
      simp [rawFalsy, isEmptyTok_false_of_error p ep hp]
    · rw [hp] at h
      rcases hr : decodeSegs rest with er | ss
      · rw [hr] at h
        injection h with h2
        subst h2
        simp [rawFalsy] at ih ⊢
        intro _
        exact ih hr
      · rw [hr] at h; cases h

theorem decodeSegments_error_iff (segs : List SegPayload) (e : PyExc) :
    decodeSegments segs = Except.error e ↔ decodeSegs segs = Except.error e := by
  rw [decodeSegments]
  rcases hd : decodeSegs segs with e2 | ss <;> simp [Except.map]

theorem subjectOf_error (msg : EmailMessage) (e : PyExc)
    (h : subjectOf msg = Except.error e) : e = PyExc.unicodeDecodeError := by
  simp only [subjectOf] at h
  by_cases hf : rawFalsy (msg.subject.getD [SegPayload.str "[No subject]"]) = true
  · rw [if_pos hf] at h; cases h
  · rw [if_neg hf] at h
    rcases hd : decodeSegments (msg.subject.getD [SegPayload.str "[No subject]"]) with e2 | s <;>
      rw [hd] at h <;> simp [Except.map] at h
    subst h
    exact decodeSegs_error _ _ ((decodeSegments_error_iff _ _).mp hd)

theorem process_email_of_subject (msg : EmailMessage) (now : Int) (s : String)
    (h : subjectOf msg = Except.ok s) :
    process_email msg now = PEResult.record
      { message_id := msg.messageId.getD ("NO_ID_" ++ toString (timestampOf msg now)),
        sender := senderOf msg, subject := s, timestamp := timestampOf msg now } := by
  rw [process_email, extractEmail, h]
  rfl

theorem process_email_of_subject_error (msg : EmailMessage) (e : PyExc)
    (now : Int) (h : subjectOf msg = Except.error e) :
    process_email msg now = PEResult.skippedOther := by
  have he := subjectOf_error msg e h
  subst he
  rw [process_email, extractEmail, h]
  rfl

/-- Counterexample to claim C4 as stated: a message with no date header
and no message-id header whose subject is a single encoded word that is
undecodable under its defaulted utf-8 charset makes process_email return
null through the broad catch-all, not a record. -/
theorem no_date_no_id_not_always_record :
    exC4Msg.date = none ∧ exC4Msg.messageId = none ∧
    (process_email exC4Msg 0).isRecord = false := by decide

/-- Claim C4 (amended): for every message with no date header and no
message-id header whose subject extraction succeeds, process_email
returns a record whose timestamp is the wall-clock instant taken as
fallback at processing time, and whose message_id is NO_ID_ followed by
the numeric rendering of the timestamp held by the record itself, that
same fallback instant. -/
theorem fallback_id_from_fallback_timestamp (msg : EmailMessage) (now : Int) (s : String)
    (hdate : msg.date = none) (hmid : msg.messageId = none)
    (hsubj : subjectOf msg = Except.ok s) :
    process_email msg now = PEResult.record
      { message_id := "NO_ID_" ++ toString now, sender := senderOf msg,
        subject := s, timestamp := now } ∧
    (∀ r : Record, process_email msg now = PEResult.record r →
      r.timestamp = now ∧ r.message_id = "NO_ID_" ++ toString r.timestamp) := by
  have hts : timestampOf msg now = now := by simp [timestampOf, hdate]
  have h := process_email_of_subject msg now s hsubj
  rw [hmid, hts] at h
  simp only [Option.getD_none] at h
  refine ⟨h, ?_⟩
  intro r hr
  rw [h] at hr
  injection hr with h2
  subst h2
  exact ⟨rfl, rfl⟩

/-- Witness for C4 (amended): a message with no headers at all, processed
at instant 42, gets timestamp 42 and message id NO_ID_42. -/
theorem fallback_id_from_fallback_timestamp_witness :
    process_email exC4wMsg 42 = PEResult.record
      { message_id := "NO_ID_" ++ toString (42 : Int), sender := "carol@x.org",
        subject := "[No subject]", timestamp := 42 } :=
  (fallback_id_from_fallback_timestamp exC4wMsg 42 "[No subject]" rfl rfl (by decide)).1

/-- Counterexample to claim C5 as stated: a subject containing a byte
undecodable under its declared ascii charset is not replaced with a
marker; process_email raises internally, hits the catch-all, and returns
null instead of a record. -/
theorem undecodable_not_replaced :
    (process_email exC5Msg 0).isRecord = false ∧
    process_email exC5Msg 0 = PEResult.skippedOther := by decide

/-- Claim C5 (amended): an undecodable byte sequence in a subject encoded
word makes the strict decode at line 79 raise; the broad catch-all then
skips the message and returns null, so process_email does not crash the
sweep but yields no record and no replacement marker.  The errors=replace
handler sits only on the final utf-8 round trip, which never meets an
undecodable sequence. -/
theorem undecodable_subject_skips (msg : EmailMessage) (now : Int)
    (segs : List SegPayload) (e : PyExc)
    (hsub : msg.subject = some segs)
    (hdec : decodeSegs segs = Except.error e) :
    process_email msg now = PEResult.skippedOther := by
  have hfal : rawFalsy segs = false := rawFalsy_false_of_error segs e hdec
  have hs : subjectOf msg = Except.error e := by
    simp [subjectOf, hsub, hfal, decodeSegments, hdec, Except.map]
  exact process_email_of_subject_error msg e now hs

/-- Witness for C5 (amended) at the counterexample message. -/
theorem undecodable_subject_skips_witness :
    process_email exC5Msg 3 = PEResult.skippedOther :=
  undecodable_subject_skips exC5Msg 3
    [SegPayload.str "Re: ", SegPayload.bytes [255] (some "ascii")]
    PyExc.unicodeDecodeError rfl (by decide)

/-- Claim C6: a subject of several encoded-word segments is decoded
segment by segment under each declared charset (defaulted to utf-8) and
the decoded segments are concatenated in their original header order; an
absent subject header yields the fixed placeholder rather than a
failure. -/
theorem subject_segments_concatenated (msg : EmailMessage) (now : Int) :
    (∀ (segs : List SegPayload) (ss : List String),
      msg.subject = some segs → rawFalsy segs = false →
      decodeSegs segs = Except.ok ss →
      ∃ r, process_email msg now = PEResult.record r ∧ r.subject = String.join ss) ∧
    (msg.subject = none →
      ∃ r, process_email msg now = PEResult.record r ∧ r.subject = "[No subject]") := by
  constructor
  · intro segs ss hsub hfal hdec
    have hs : subjectOf msg = Except.ok (String.join ss) := by
      simp [subjectOf, hsub, hfal, decodeSegments, hdec, Except.map, utf8ReplaceRoundTrip]
    exact ⟨_, process_email_of_subject msg now _ hs, rfl⟩
  · intro hsub
    have hs : subjectOf msg = Except.ok "[No subject]" := by
      simp only [subjectOf, hsub, Option.getD_none]
      decide
    exact ⟨_, process_email_of_subject msg now _ hs, rfl⟩

/-- Witness for C6: an ascii segment and a latin-1 segment decode and
concatenate in order, and an absent subject header yields the
placeholder. -/
theorem subject_segments_concatenated_witness :
    (∃ r, process_email exC6Msg 0 = PEResult.record r ∧
      r.subject = String.join ["Hi", "ÈÉ"]) ∧
    (∃ r, process_email exC6MsgNoSubj 0 = PEResult.record r ∧ r.subject = "[No subject]") :=
  ⟨(subject_segments_concatenated exC6Msg 0).1
      [SegPayload.bytes [72, 105] (some "ascii"), SegPayload.bytes [200, 201] (some "latin-1")]
      ["Hi", "ÈÉ"] rfl (by decide) (by decide),
   (subject_segments_concatenated exC6MsgNoSubj 0).2 rfl⟩

/-- Claim C9: a present but empty subject header is kept as the empty
string, not the placeholder: the falsy value skips the decoding branch
unchanged, and the placeholder arises only from the defaulting of an
absent header. -/
theorem empty_subject_not_placeholder (msg : EmailMessage) (now : Int)
    (segs : List SegPayload) (hsub : msg.subject = some segs)
    (hfal : rawFalsy segs = true) :
    ∃ r, process_email msg now = PEResult.record r ∧ r.subject = "" ∧
      r.subject ≠ "[No subject]" := by
  have hs : subjectOf msg = Except.ok "" := by
    simp [subjectOf, hsub, hfal]
  refine ⟨_, process_email_of_subject msg now _ hs, rfl, ?_⟩
  simp

/-- Witness for C9 at a message whose subject header is present and
empty. -/
theorem empty_subject_not_placeholder_witness :
    ∃ r, process_email exC9Msg 0 = PEResult.record r ∧ r.subject = "" ∧
      r.subject ≠ "[No subject]" :=
  empty_subject_not_placeholder exC9Msg 0 [SegPayload.str ""] rfl (by decide)

/-- Claim C10: every header read by process_email goes through a
defaulted total lookup, so the KeyError branch at lines 98-100 is
unreachable: the outcome is always a record or a skip through the broad
catch-all, never a skip through the missing-key warning branch. -/
theorem no_keyerror_skip (msg : EmailMessage) (now : Int) :
    (∀ k, process_email msg now ≠ PEResult.skippedKey k) ∧
    ((process_email msg now).isRecord = true ∨
      process_email msg now = PEResult.skippedOther) := by
  rcases hs : subjectOf msg with e | s
  · have hskip := process_email_of_subject_error msg e now hs
    rw [hskip]
    exact ⟨fun k => by simp, Or.inr rfl⟩
  · have hrec := process_email_of_subject msg now s hs
    rw [hrec]
    exact ⟨fun k => by simp, Or.inl rfl⟩

/-- Witness for C10 at a concrete message: the skip taken for the
undecodable subject goes through the catch-all, never the KeyError
branch. -/
theorem no_keyerror_skip_witness :
    process_email exC5Msg 0 ≠ PEResult.skippedKey "message-id" :=
  (no_keyerror_skip exC5Msg 0).1 "message-id"

/-- Witness for C3 (amended) at a concrete sweep whose open succeeds. -/
theorem close_called_iff_opened_witness :
    (process_unread_emails envC8 5 []).logouts = 1 := by
  have h := (close_called_iff_opened envC8 5 []).1
  rw [h]
  decide

end EmailProc
